import Mathlib

/-!
Verification development for the MediScrap repository (src/main.py and
src/logger.py), a sequential facet-crawl engine over a medical directory
site.  Python strings are modelled as lists of characters, the JSON values
produced by json.loads as an inductive type, network responses as abstract
outcome values, and Python exceptions that can escape a function as an
Except layer.  All definitions are translated from src/main.py.
-/

/-- Python strings are modelled as lists of characters. -/
abbrev Str := List Char

/-! ## Character-level normalization model

The unidecode library maps Unicode text to closest-ASCII text.  We model it
character by character over the character repertoire relevant to this
scraper (the Polish diacritics, in both cases); every other character is
left unchanged.  Each table value is a plain ASCII letter, so the table
domain and range are disjoint. -/

/-- Transliteration table for unidecode, restricted to Polish diacritics. -/
def unidecTable : List (Char × Char) :=
  [('ą', 'a'), ('ć', 'c'), ('ę', 'e'), ('ł', 'l'), ('ń', 'n'),
   ('ó', 'o'), ('ś', 's'), ('ź', 'z'), ('ż', 'z'),
   ('Ą', 'A'), ('Ć', 'C'), ('Ę', 'E'), ('Ł', 'L'), ('Ń', 'N'),
   ('Ó', 'O'), ('Ś', 'S'), ('Ź', 'Z'), ('Ż', 'Z')]

/-- Case-lowering table for str.lower, over the same repertoire: the ASCII
uppercase letters and the uppercase Polish diacritics. -/
def lowerTable : List (Char × Char) :=
  [('A', 'a'), ('B', 'b'), ('C', 'c'), ('D', 'd'), ('E', 'e'), ('F', 'f'),
   ('G', 'g'), ('H', 'h'), ('I', 'i'), ('J', 'j'), ('K', 'k'), ('L', 'l'),
   ('M', 'm'), ('N', 'n'), ('O', 'o'), ('P', 'p'), ('Q', 'q'), ('R', 'r'),
   ('S', 's'), ('T', 't'), ('U', 'u'), ('V', 'v'), ('W', 'w'), ('X', 'x'),
   ('Y', 'y'), ('Z', 'z'),
   ('Ą', 'ą'), ('Ć', 'ć'), ('Ę', 'ę'), ('Ł', 'ł'), ('Ń', 'ń'),
   ('Ó', 'ó'), ('Ś', 'ś'), ('Ź', 'ź'), ('Ż', 'ż')]

/-- Look a character up in a substitution table. -/
def findVal (t : List (Char × Char)) (c : Char) : Option Char :=
  (t.find? (fun p => p.1 = c)).map (fun p => p.2)

/-- One character of unidecode. -/
def unidec (c : Char) : Char := (findVal unidecTable c).getD c

/-- One character of str.lower. -/
def pyLower (c : Char) : Char := (findVal lowerTable c).getD c

/-- Single-character substitution, modelling str.replace with one-character
pattern and replacement. -/
def chrep (a b c : Char) : Char := if c = a then b else c

/-- Left-to-right non-overlapping replacement of the three-character
sequence space, hyphen, space by a single hyphen: models
str.replace of " - " by "-". -/
def replaceDash : Str → Str
  | [] => []
  | [c] => [c]
  | [c, d] => [c, d]
  | c :: d :: e :: rest =>
    if c = ' ' ∧ d = '-' ∧ e = ' ' then '-' :: replaceDash rest
    else c :: replaceDash (d :: e :: rest)

/-- The characters str.strip removes: ASCII whitespace. -/
def pyWhitespace (c : Char) : Bool :=
  c = ' ' || c = '\t' || c = '\n' || c = '\r' || c = '\x0b' || c = '\x0c'

/-- Python str.strip(): drop leading and trailing whitespace. -/
def pyStrip (s : Str) : Str :=
  ((s.dropWhile pyWhitespace).reverse.dropWhile pyWhitespace).reverse

/-- MedicoverScraper.format_entry from src/main.py:
unidecode(entry).replace(" - ", "-").replace(" ", "-").replace("/", "-").lower() -/
def format_entry (s : Str) : Str :=
  (((replaceDash (s.map unidec)).map (chrep ' ' '-')).map (chrep '/' '-')).map pyLower

/-! ## JSON and API response model

json.loads either raises json.JSONDecodeError or yields a JSON value; the
value is modelled by the inductive type JVal.  A call through the requests
library either raises requests.RequestException (a transport error, or a
non-success status turned into an error by raise_for_status) or succeeds
with a body; for the API the body is kept as its parse outcome: none when
the body is not valid JSON. -/

/-- A parsed JSON value. -/
inductive JVal where
  | jnull : JVal
  | jbool (b : Bool) : JVal
  | jnum (n : Int) : JVal
  | jstr (s : Str) : JVal
  | jarr (items : List JVal) : JVal
  | jobj (fields : List (Str × JVal)) : JVal

/-- Outcome of the POST to the facet-listing endpoint. -/
inductive ApiResponse where
  | failure : ApiResponse
  | success (body : Option JVal) : ApiResponse

/-- The Python exceptions that can escape the modelled functions. -/
inductive PyExc where
  | jsonDecodeError : PyExc
  | attributeError : PyExc
  | typeError : PyExc
deriving DecidableEq

/-- Decidable equality for Except values, used to evaluate the model on
concrete inputs. -/
def exceptDecEq {ε α : Type} [DecidableEq ε] [DecidableEq α] :
    DecidableEq (Except ε α)
  | .error x, .error y =>
    if h : x = y then .isTrue (congrArg Except.error h)
    else .isFalse (fun hc => h (Except.error.inj hc))
  | .error _, .ok _ => .isFalse (fun hc => Except.noConfusion hc)
  | .ok _, .error _ => .isFalse (fun hc => Except.noConfusion hc)
  | .ok x, .ok y =>
    if h : x = y then .isTrue (congrArg Except.ok h)
    else .isFalse (fun hc => h (Except.ok.inj hc))

instance {ε α : Type} [DecidableEq ε] [DecidableEq α] :
    DecidableEq (Except ε α) := exceptDecEq

/-- Python dict.get on the object fields produced by json.loads. -/
def dictGet (fields : List (Str × JVal)) (key : Str) : Option JVal :=
  (fields.find? (fun p => p.1 = key)).map (fun p => p.2)

/-- MedicoverScraper.get_data from src/main.py.  Only
requests.RequestException is caught (returning an empty list); a body that
is not valid JSON makes json.loads raise json.JSONDecodeError, and a parsed
body that is not an object makes the .get attribute access raise
AttributeError.  Both escape uncaught. -/
def get_data (resp : ApiResponse) : Except PyExc JVal :=
  match resp with
  | .failure => .ok (.jarr [])
  | .success none => .error .jsonDecodeError
  | .success (some (.jobj fields)) => .ok ((dictGet fields ("d".data)).getD (.jarr []))
  | .success (some _) => .error .attributeError

/-- Iterating a JSON value with a Python for-loop: lists yield their items,
strings yield their characters as one-character strings, objects yield
their keys, and the remaining values raise TypeError. -/
def pyIter : JVal → Except PyExc (List JVal)
  | .jarr items => .ok items
  | .jstr s => .ok (s.map (fun c => .jstr [c]))
  | .jobj fields => .ok (fields.map (fun p => JVal.jstr p.1))
  | _ => .error .typeError

/-- unidecode demands a string argument; anything else raises TypeError. -/
def asStr : JVal → Except PyExc Str
  | .jstr s => .ok s
  | _ => .error .typeError

/-- Exception propagation: run the continuation unless an exception is
already in flight. -/
def exBind {α β : Type} (x : Except PyExc α) (f : α → Except PyExc β) :
    Except PyExc β :=
  match x with
  | .error e => .error e
  | .ok a => f a

@[simp] lemma exBind_ok {α β : Type} (a : α) (f : α → Except PyExc β) :
    exBind (.ok a) f = f a := rfl

@[simp] lemma exBind_error {α β : Type} (e : PyExc) (f : α → Except PyExc β) :
    exBind (.error e) f = .error e := rfl

/-- Effectful map over a list, stopping at the first raised exception. -/
def mapExcept {α β : Type} (f : α → Except PyExc β) :
    List α → Except PyExc (List β)
  | [] => .ok []
  | a :: rest =>
    exBind (f a) (fun b => exBind (mapExcept f rest) (fun bs => .ok (b :: bs)))

/-- Python sorted() on distinct strings: ascending lexicographic order by
code point, here the lexicographic order on lists of characters. -/
def sortS (l : List Str) : List Str := l.insertionSort (· ≤ ·)

/-- MedicoverScraper.fetch_data from src/main.py: get the data list,
normalize each entry through format_entry into a set, and return the
sorted list of the set. -/
def fetch_data (resp : ApiResponse) : Except PyExc (List Str) :=
  exBind (get_data resp) (fun v =>
    exBind (pyIter v) (fun items =>
      exBind (mapExcept asStr items) (fun entries =>
        .ok (sortS ((entries.map format_entry).dedup)))))

/-! ## Directory page model

A successful GET of a listing page is kept as its parse result: the list of
elements BeautifulSoup finds under the doctors-box class.  Inside one such
element, find("span") and find(class_="doctor-facility") each either locate
a sub-element, whose text we keep, or return None. -/

/-- One element of class doctors-box on a listing page. -/
structure DoctorBox where
  span : Option Str
  facility : Option Str
deriving DecidableEq

/-- Outcome of the GET of one listing page. -/
inductive PageResponse where
  | failure : PageResponse
  | success (boxes : List DoctorBox) : PageResponse
deriving DecidableEq

/-- MedicoverScraper.scrape_doctors from src/main.py: on
requests.RequestException the error is logged and an empty list returned;
otherwise the doctors-box elements of the parsed page. -/
def scrape_doctors : PageResponse → List DoctorBox
  | .failure => []
  | .success boxes => boxes

/-- One extracted record: the keys imie and placowka of the dict built by
extract_doctor_info. -/
structure EntityRecord where
  imie : Str
  placowka : Str
deriving DecidableEq

/-- MedicoverScraper.extract_doctor_info from src/main.py.  Elements with
no span sub-element are silently skipped by the comprehension filter; for
the remaining elements the facility sub-element is dereferenced without a
guard, so its absence raises AttributeError. -/
def extract_doctor_info : List DoctorBox → Except PyExc (List EntityRecord)
  | [] => .ok []
  | b :: rest =>
    match b.span with
    | none => extract_doctor_info rest
    | some name =>
      match b.facility with
      | none => .error .attributeError
      | some fac =>
        exBind (extract_doctor_info rest) (fun rs =>
          .ok (⟨replaceDash name,
                pyStrip ((replaceDash fac).map (chrep '|' '-'))⟩ :: rs))

/-! ## Pagination crawler model

The page URL is built from the base URL, the profession, the city and the
1-based page index; the network is a function from URL to PageResponse.
The loop for i in range(1, pagination_limit) is modelled with a fuel
argument equal to the number of remaining iterations, so a run starting at
page 1 gets fuel pagination_limit - 1.  The result is instrumented with
the list of page indices actually requested, whether the NOTE-level
message was emitted, and whether the loop ended through the empty-page
break rather than by exhausting the range. -/

/-- The default pagination_limit of MedicoverScraper. -/
def default_pagination_limit : Nat := 50

/-- URL of one listing page: basic_url/profession/city,sl,i,s -/
def make_url (basic profession city : Str) (i : Nat) : Str :=
  basic ++ "/".data ++ profession ++ "/".data ++ city ++ ",sl,".data
    ++ Nat.toDigits 10 i ++ ",s".data

/-- Observable outcome of one pagination loop. -/
structure CrawlResult where
  records : List EntityRecord
  requested : List Nat
  note : Bool
  stoppedEmpty : Bool
deriving DecidableEq

/-- The loop body of MedicoverScraper.scrape_doctors_info: starting at page
index i with fuel remaining iterations and the records accumulated so far.
A page with a nonempty box list is extracted and the loop continues; a page
with no boxes breaks, emitting the NOTE message exactly when the
accumulator is still empty; running out of fuel ends the loop silently. -/
def crawlFrom (net : Str → PageResponse) (basic profession city : Str) :
    Nat → Nat → List EntityRecord → Except PyExc CrawlResult
  | _, 0, acc => .ok ⟨acc, [], false, false⟩
  | i, fuel + 1, acc =>
    if scrape_doctors (net (make_url basic profession city i)) = [] then
      .ok ⟨acc, [i], acc.isEmpty, true⟩
    else
      exBind (extract_doctor_info
          (scrape_doctors (net (make_url basic profession city i)))) (fun recs =>
        exBind (crawlFrom net basic profession city (i + 1) fuel (acc ++ recs))
          (fun r => .ok ⟨r.records, i :: r.requested, r.note, r.stoppedEmpty⟩))

/-- One full pagination loop for a facet pair, as run by
scrape_doctors_info: pages 1 up to pagination_limit - 1. -/
def crawlRun (net : Str → PageResponse) (basic profession city : Str)
    (pagination_limit : Nat) : Except PyExc CrawlResult :=
  crawlFrom net basic profession city 1 (pagination_limit - 1) []

/-- MedicoverScraper.scrape_doctors_info from src/main.py: the accumulated
record list of the pagination loop. -/
def scrape_doctors_info (net : Str → PageResponse) (basic profession city : Str)
    (pagination_limit : Nat) : Except PyExc (List EntityRecord) :=
  exBind (crawlRun net basic profession city pagination_limit)
    (fun r => .ok r.records)

/-- The list of page indices i, i+1, ..., i+n-1, the pages a loop with
fuel n starting at i requests when no page is empty. -/
def pageList : Nat → Nat → List Nat
  | _, 0 => []
  | i, n + 1 => i :: pageList (i + 1) n

/-! ## Aggregator model -/

/-- The nested result mapping, location to category to records, as an
insertion-ordered association list (Python dicts preserve insertion
order). -/
abbrev ResultTree := List (Str × List (Str × List EntityRecord))

/-- The inner loop of gather_medicover_data: one city, all professions. -/
def gatherInner (net : Str → PageResponse) (basic city : Str)
    (pagination_limit : Nat) : List Str → Except PyExc (List (Str × List EntityRecord))
  | [] => .ok []
  | p :: ps =>
    exBind (scrape_doctors_info net basic p city pagination_limit) (fun recs =>
      exBind (gatherInner net basic city pagination_limit ps) (fun rest =>
        .ok ((p, recs) :: rest)))

/-- The outer loop of gather_medicover_data: all cities. -/
def gatherOuter (net : Str → PageResponse) (basic : Str)
    (pagination_limit : Nat) (professions : List Str) :
    List Str → Except PyExc ResultTree
  | [] => .ok []
  | c :: cs =>
    exBind (gatherInner net basic c pagination_limit professions) (fun inner =>
      exBind (gatherOuter net basic pagination_limit professions cs) (fun rest =>
        .ok ((c, inner) :: rest)))

/-- MedicoverScraper.gather_medicover_data from src/main.py: resolve the
city facets, then the profession facets, then crawl every pair in order.
cityResp and profResp are the outcomes of the two facet-listing calls. -/
def gather_medicover_data (net : Str → PageResponse) (basic : Str)
    (cityResp profResp : ApiResponse) (pagination_limit : Nat) :
    Except PyExc ResultTree :=
  exBind (fetch_data cityResp) (fun cities =>
    exBind (fetch_data profResp) (fun professions =>
      gatherOuter net basic pagination_limit professions cities))

/-! ## Lemmas about the normalization tables -/

/-- Table values are not themselves keys, no entry is the identity, and no
key or value is a space, hyphen or slash. -/
lemma unidecTable_facts : ∀ q ∈ unidecTable,
    findVal unidecTable q.2 = none ∧ q.1 ≠ q.2 ∧
    q.1 ≠ ' ' ∧ q.2 ≠ ' ' ∧ q.1 ≠ '-' ∧ q.2 ≠ '-' ∧ q.1 ≠ '/' ∧ q.2 ≠ '/' := by
  decide

/-- The same facts for the lowering table. -/
lemma lowerTable_facts : ∀ q ∈ lowerTable,
    findVal lowerTable q.2 = none ∧ q.1 ≠ q.2 ∧
    q.1 ≠ ' ' ∧ q.2 ≠ ' ' ∧ q.1 ≠ '-' ∧ q.2 ≠ '-' ∧ q.1 ≠ '/' ∧ q.2 ≠ '/' := by
  decide

/-- A key of the lowering table whose unidecode image is itself has a value
whose unidecode image is itself: the diacritic keys are filtered out by the
hypothesis. -/
lemma lowerTable_unidec_compat : ∀ q ∈ lowerTable,
    findVal unidecTable q.1 = none → findVal unidecTable q.2 = none := by
  decide

lemma findVal_eq_some {t : List (Char × Char)} {c v : Char}
    (h : findVal t c = some v) : ∃ q ∈ t, q.1 = c ∧ q.2 = v := by
  unfold findVal at h
  cases hf : t.find? (fun p => p.1 = c) with
  | none => rw [hf] at h; exact absurd h (by simp)
  | some q =>
    rw [hf] at h
    refine ⟨q, List.mem_of_find?_eq_some hf, ?_, ?_⟩
    · simpa using List.find?_some hf
    · simpa using h

lemma unidec_of_none {c : Char} (h : findVal unidecTable c = none) :
    unidec c = c := by
  simp [unidec, h]

lemma pyLower_of_none {c : Char} (h : findVal lowerTable c = none) :
    pyLower c = c := by
  simp [pyLower, h]

lemma unidec_idem (c : Char) : unidec (unidec c) = unidec c := by
  cases h : findVal unidecTable c with
  | none => rw [unidec_of_none h, unidec_of_none h]
  | some v =>
    have hv : unidec c = v := by simp [unidec, h]
    obtain ⟨q, hq, h1, h2⟩ := findVal_eq_some h
    rw [hv, unidec_of_none (h2 ▸ (unidecTable_facts q hq).1)]

lemma pyLower_idem (c : Char) : pyLower (pyLower c) = pyLower c := by
  cases h : findVal lowerTable c with
  | none => rw [pyLower_of_none h, pyLower_of_none h]
  | some v =>
    have hv : pyLower c = v := by simp [pyLower, h]
    obtain ⟨q, hq, h1, h2⟩ := findVal_eq_some h
    rw [hv, pyLower_of_none (h2 ▸ (lowerTable_facts q hq).1)]

lemma findVal_none_of_unidec_fix {c : Char} (h : unidec c = c) :
    findVal unidecTable c = none := by
  cases hf : findVal unidecTable c with
  | none => rfl
  | some v =>
    obtain ⟨q, hq, h1, h2⟩ := findVal_eq_some hf
    have hv : unidec c = v := by simp [unidec, hf]
    have hcv : c = v := h.symm.trans hv
    exact absurd (h1.trans (hcv.trans h2.symm)) (unidecTable_facts q hq).2.1

/-- For a substitution table none of whose keys or values equals d, the
induced map sends a character to d exactly when it already is d. -/
lemma tableMap_eq_iff {t : List (Char × Char)} {d : Char}
    (hkv : ∀ q ∈ t, q.1 ≠ d ∧ q.2 ≠ d) (c : Char) :
    (findVal t c).getD c = d ↔ c = d := by
  cases hf : findVal t c with
  | none => simp
  | some v =>
    obtain ⟨q, hq, h1, h2⟩ := findVal_eq_some hf
    simp only [Option.getD_some]
    constructor
    · intro hv; exact absurd (h2.trans hv) (hkv q hq).2
    · intro hc; exact absurd (h1.trans hc) (hkv q hq).1

lemma unidec_space_iff (c : Char) : unidec c = ' ' ↔ c = ' ' := by
  unfold unidec
  exact tableMap_eq_iff (fun q hq => ⟨(unidecTable_facts q hq).2.2.1,
    (unidecTable_facts q hq).2.2.2.1⟩) c

lemma unidec_dash_iff (c : Char) : unidec c = '-' ↔ c = '-' := by
  unfold unidec
  exact tableMap_eq_iff (fun q hq => ⟨(unidecTable_facts q hq).2.2.2.2.1,
    (unidecTable_facts q hq).2.2.2.2.2.1⟩) c

lemma pyLower_space_iff (c : Char) : pyLower c = ' ' ↔ c = ' ' := by
  unfold pyLower
  exact tableMap_eq_iff (fun q hq => ⟨(lowerTable_facts q hq).2.2.1,
    (lowerTable_facts q hq).2.2.2.1⟩) c

lemma pyLower_dash_iff (c : Char) : pyLower c = '-' ↔ c = '-' := by
  unfold pyLower
  exact tableMap_eq_iff (fun q hq => ⟨(lowerTable_facts q hq).2.2.2.2.1,
    (lowerTable_facts q hq).2.2.2.2.2.1⟩) c

/-! ## Lemmas about replaceDash -/

/-- The fourth equation of replaceDash, as a rewriting rule. -/
lemma replaceDash_cons3 (c d e : Char) (rest : Str) :
    replaceDash (c :: d :: e :: rest) =
      if c = ' ' ∧ d = '-' ∧ e = ' ' then '-' :: replaceDash rest
      else c :: replaceDash (d :: e :: rest) := rfl

lemma replaceDash_id_of_no_space : ∀ (s : Str), (∀ x ∈ s, x ≠ ' ') → replaceDash s = s
  | [], _ => rfl
  | [_], _ => rfl
  | [_, _], _ => rfl
  | c :: d :: e :: rest, h => by
    rw [replaceDash_cons3, if_neg (fun hc => h c (by simp) hc.1),
      replaceDash_id_of_no_space (d :: e :: rest)
        (fun x hx => h x (List.mem_cons_of_mem c hx))]

lemma mem_replaceDash : ∀ (s : Str) (x : Char), x ∈ replaceDash s → x ∈ s ∨ x = '-'
  | [], x, hx => absurd hx (by simp [replaceDash])
  | [c], x, hx => .inl (by simpa [replaceDash] using hx)
  | [c, d], x, hx => .inl (by simpa [replaceDash] using hx)
  | c :: d :: e :: rest, x, hx => by
    rw [replaceDash_cons3] at hx
    by_cases hcond : c = ' ' ∧ d = '-' ∧ e = ' '
    · rw [if_pos hcond] at hx
      rcases List.mem_cons.mp hx with hx | hx
      · exact .inr hx
      · rcases mem_replaceDash rest x hx with hmem | hd
        · exact .inl (by simp [hmem])
        · exact .inr hd
    · rw [if_neg hcond] at hx
      rcases List.mem_cons.mp hx with hx | hx
      · exact .inl (by simp [hx])
      · rcases mem_replaceDash (d :: e :: rest) x hx with hmem | hd
        · exact .inl (List.mem_cons_of_mem c hmem)
        · exact .inr hd

/-- replaceDash commutes with mapping a character function that preserves
and reflects both space and hyphen. -/
lemma replaceDash_map (f : Char → Char) (hsp : ∀ x, f x = ' ' ↔ x = ' ')
    (hdash : ∀ x, f x = '-' ↔ x = '-') :
    ∀ (s : Str), replaceDash (s.map f) = (replaceDash s).map f
  | [] => rfl
  | [c] => rfl
  | [c, d] => rfl
  | c :: d :: e :: rest => by
    rw [List.map_cons, List.map_cons, List.map_cons, replaceDash_cons3,
      replaceDash_cons3]
    by_cases hcond : c = ' ' ∧ d = '-' ∧ e = ' '
    · rw [if_pos ⟨(hsp c).mpr hcond.1, (hdash d).mpr hcond.2.1,
        (hsp e).mpr hcond.2.2⟩, if_pos hcond, List.map_cons,
        (hdash '-').mpr rfl, replaceDash_map f hsp hdash rest]
    · rw [if_neg (fun hc => hcond ⟨(hsp c).mp hc.1, (hdash d).mp hc.2.1,
        (hsp e).mp hc.2.2⟩), if_neg hcond, List.map_cons,
        ← List.map_cons f e rest, ← List.map_cons f d (e :: rest),
        replaceDash_map f hsp hdash (d :: e :: rest)]

/-! ## Idempotence of format_entry -/

/-- Mapping a function that fixes every member of a list is the identity. -/
lemma map_id_on {f : Char → Char} : ∀ {t : Str}, (∀ x ∈ t, f x = x) → t.map f = t
  | [], _ => rfl
  | c :: rest, h => by
    rw [List.map_cons, h c (List.mem_cons_self c rest),
      map_id_on (fun x hx => h x (List.mem_cons_of_mem c hx))]

/-- The characters format_entry can output: fixed by unidecode and by
lowering, and neither space nor slash. -/
def normalChar (c : Char) : Prop :=
  unidec c = c ∧ pyLower c = c ∧ c ≠ ' ' ∧ c ≠ '/'

lemma pyLower_normal {c : Char} (hu : unidec c = c) (hs : c ≠ ' ')
    (hsl : c ≠ '/') : normalChar (pyLower c) := by
  cases hf : findVal lowerTable c with
  | none =>
    rw [pyLower_of_none hf]
    exact ⟨hu, pyLower_of_none hf, hs, hsl⟩
  | some v =>
    have hv : pyLower c = v := by simp [pyLower, hf]
    obtain ⟨q, hq, h1, h2⟩ := findVal_eq_some hf
    rw [hv, ← h2]
    have hnone : findVal unidecTable q.2 = none :=
      lowerTable_unidec_compat q hq (h1 ▸ findVal_none_of_unidec_fix hu)
    exact ⟨unidec_of_none hnone, pyLower_of_none (lowerTable_facts q hq).1,
      (lowerTable_facts q hq).2.2.2.1, (lowerTable_facts q hq).2.2.2.2.2.2.2⟩

lemma format_entry_chars (s : Str) : ∀ x ∈ format_entry s, normalChar x := by
  intro x hx
  simp only [format_entry] at hx
  obtain ⟨y, hy, rfl⟩ := List.mem_map.mp hx
  obtain ⟨z, hz, rfl⟩ := List.mem_map.mp hy
  obtain ⟨w, hw, rfl⟩ := List.mem_map.mp hz
  have hwu : unidec w = w := by
    rcases mem_replaceDash _ w hw with hmem | hd
    · obtain ⟨a, _, rfl⟩ := List.mem_map.mp hmem
      exact unidec_idem a
    · rw [hd]; decide
  by_cases hw' : w = ' '
  · subst hw'
    show normalChar (pyLower (chrep '/' '-' (chrep ' ' '-' ' ')))
    exact ⟨by decide, by decide, by decide, by decide⟩
  · rw [show chrep ' ' '-' w = w from if_neg hw']
    by_cases hw2 : w = '/'
    · subst hw2
      show normalChar (pyLower (chrep '/' '-' '/'))
      exact ⟨by decide, by decide, by decide, by decide⟩
    · rw [show chrep '/' '-' w = w from if_neg hw2]
      exact pyLower_normal hwu hw' hw2

lemma format_entry_fixed {t : Str} (h : ∀ x ∈ t, normalChar x) :
    format_entry t = t := by
  have h1 : t.map unidec = t := map_id_on (fun x hx => (h x hx).1)
  have h2 : replaceDash t = t :=
    replaceDash_id_of_no_space t (fun x hx => (h x hx).2.2.1)
  have h3 : t.map (chrep ' ' '-') = t :=
    map_id_on (fun x hx => if_neg (h x hx).2.2.1)
  have h4 : t.map (chrep '/' '-') = t :=
    map_id_on (fun x hx => if_neg (h x hx).2.2.2)
  have h5 : t.map pyLower = t := map_id_on (fun x hx => (h x hx).2.1)
  rw [format_entry, h1, h2, h3, h4, h5]

/-! ## Congruence of format_entry under case and diacritic variation -/

/-- The pointwise core of case-invariance: lowering a character first does
not change the final pipeline character. -/
lemma lowerTable_pointwise : ∀ q ∈ lowerTable,
    pyLower (chrep '/' '-' (chrep ' ' '-' (unidec q.2))) =
      pyLower (chrep '/' '-' (chrep ' ' '-' (unidec q.1))) := by
  decide

lemma pipeline_pyLower (x : Char) :
    pyLower (chrep '/' '-' (chrep ' ' '-' (unidec (pyLower x)))) =
      pyLower (chrep '/' '-' (chrep ' ' '-' (unidec x))) := by
  cases hf : findVal lowerTable x with
  | none => rw [pyLower_of_none hf]
  | some v =>
    have hv : pyLower x = v := by simp [pyLower, hf]
    obtain ⟨q, hq, h1, h2⟩ := findVal_eq_some hf
    rw [hv, ← h2, ← h1]
    exact lowerTable_pointwise q hq

/-- Lowering the label first does not change its FacetId. -/
lemma format_entry_map_pyLower (s : Str) :
    format_entry (s.map pyLower) = format_entry s := by
  have hsp : ∀ x, (unidec (pyLower x) = ' ' ↔ x = ' ') := fun x => by
    rw [unidec_space_iff, pyLower_space_iff]
  have hdash : ∀ x, (unidec (pyLower x) = '-' ↔ x = '-') := fun x => by
    rw [unidec_dash_iff, pyLower_dash_iff]
  simp only [format_entry, List.map_map]
  rw [show unidec ∘ pyLower = fun x => unidec (pyLower x) from rfl,
    replaceDash_map (fun x => unidec (pyLower x)) hsp hdash s,
    replaceDash_map unidec unidec_space_iff unidec_dash_iff s,
    List.map_map, List.map_map]
  refine List.map_congr_left (fun x _ => ?_)
  simp only [Function.comp_apply]
  exact pipeline_pyLower x

/-- Stripping diacritics from the label first does not change its
FacetId. -/
lemma format_entry_map_unidec (s : Str) :
    format_entry (s.map unidec) = format_entry s := by
  simp only [format_entry, List.map_map]
  rw [show unidec ∘ unidec = fun x => unidec (unidec x) from rfl,
    show s.map (fun x => unidec (unidec x)) = s.map unidec from
      List.map_congr_left (fun a _ => unidec_idem a)]

/-- Claim C9: the FacetId normalization is idempotent: for every input
string x, format_entry (format_entry x) equals format_entry x. -/
theorem claim_C9_idempotent (s : Str) :
    format_entry (format_entry s) = format_entry s :=
  format_entry_fixed (format_entry_chars s)

/-- Claim C4 counterexample: the labels "a b" and "a  b" differ only in
whitespace style, single versus repeated space, yet format_entry maps them
to the distinct identifiers "a-b" and "a--b"; likewise a tab is not
treated as whitespace at all, so "a\tb" and "a b" also map to distinct
identifiers. -/
theorem claim_C4_counterexample :
    format_entry ("a b".data) ≠ format_entry ("a  b".data) ∧
    format_entry ("a\tb".data) ≠ format_entry ("a b".data) ∧
    format_entry ("a b".data) = "a-b".data ∧
    format_entry ("a  b".data) = "a--b".data := by
  exact ⟨by decide, by decide, by decide, by decide⟩

/-- Claim C4 (amended): labels that differ only in case map to the same
FacetId, labels that differ only in diacritics map to the same FacetId,
and the whitespace spellings space, hyphen, and space-hyphen-space of a
separator all map to a hyphen; but whitespace collapsing is not general:
repeated spaces and non-space whitespace are preserved, so such variants
can map to distinct FacetIds. -/
theorem claim_C4_normalization :
    (∀ s t : Str, s.map pyLower = t.map pyLower →
      format_entry s = format_entry t) ∧
    (∀ s t : Str, s.map unidec = t.map unidec →
      format_entry s = format_entry t) ∧
    format_entry ("a b".data) = format_entry ("a-b".data) ∧
    format_entry ("a - b".data) = format_entry ("a-b".data) := by
  refine ⟨fun s t h => ?_, fun s t h => ?_, by decide, by decide⟩
  · rw [← format_entry_map_pyLower s, h, format_entry_map_pyLower t]
  · rw [← format_entry_map_unidec s, h, format_entry_map_unidec t]

/-- Witness for claim C4: the case variants "AB" and "ab" lower to the
same string, and the amended theorem applied there yields equal
FacetIds. -/
theorem claim_C4_normalization_witness :
    ("AB".data : Str).map pyLower = ("ab".data : Str).map pyLower ∧
    format_entry ("AB".data) = format_entry ("ab".data) :=
  ⟨by decide, claim_C4_normalization.1 ("AB".data) ("ab".data) (by decide)⟩

/-! ## Facet resolver claims -/

/-- Claim C2: the code_bug evaluation.  A transport failure indeed yields
an empty list, but a successful response whose body is not valid JSON
raises json.JSONDecodeError out of get_data and fetch_data, because only
requests.RequestException is caught; this contradicts both the claim and
the get_data docstring, which promises an empty list on any error. -/
theorem claim_C2_raises :
    get_data (ApiResponse.success none) = .error .jsonDecodeError ∧
    fetch_data (ApiResponse.success none) = .error .jsonDecodeError ∧
    get_data ApiResponse.failure = .ok (JVal.jarr []) ∧
    fetch_data ApiResponse.failure = .ok [] :=
  ⟨rfl, rfl, rfl, rfl⟩

/-- sortS of a duplicate-free list is strictly sorted, in the
lexicographic order on lists of characters, and duplicate-free. -/
lemma sortS_sorted_nodup {l : List Str} (h : l.Nodup) :
    (sortS l).Sorted (· < ·) ∧ (sortS l).Nodup := by
  unfold sortS
  have h1 : (l.insertionSort (· ≤ ·)).Sorted (· ≤ ·) :=
    List.sorted_insertionSort _ _
  have h2 : (l.insertionSort (· ≤ ·)).Nodup :=
    ((List.perm_insertionSort _ _).nodup_iff).mpr h
  exact ⟨h1.lt_of_le h2, h2⟩

/-- Claim C8: whatever the upstream listing endpoint returns, when
fetch_data returns a facet list at all, that list is duplicate-free and
sorted in strictly ascending lexicographic order. -/
theorem claim_C8_sorted (resp : ApiResponse) (out : List Str)
    (h : fetch_data resp = .ok out) :
    out.Sorted (· < ·) ∧ out.Nodup := by
  unfold fetch_data at h
  simp only [exBind] at h
  split at h
  · exact absurd h (by simp)
  · split at h
    · exact absurd h (by simp)
    · split at h
      · exact absurd h (by simp)
      · injection h with h
        subst h
        exact sortS_sorted_nodup (List.nodup_dedup _)

/-- Response used to witness claim C8: unsorted labels with a
normalization collision. -/
def respC8 : ApiResponse :=
  .success (some (.jobj [("d".data,
    .jarr [.jstr ("B".data), .jstr ("A".data), .jstr ("b".data)])]))

/-- Witness for claim C8 at a concrete unsorted, colliding response. -/
theorem claim_C8_sorted_witness :
    fetch_data respC8 = .ok [("a".data : Str), "b".data] ∧
    (([("a".data : Str), "b".data]).Sorted (· < ·) ∧
      ([("a".data : Str), "b".data]).Nodup) :=
  ⟨by decide, claim_C8_sorted respC8 [("a".data : Str), "b".data] (by decide)⟩

/-- Network in which every page has one entity element that carries a name
but no facility sub-element. -/
def netC1 : Str → PageResponse := fun _ => .success [⟨some ("x".data), none⟩]

/-- Facet response resolving to the single facet a. -/
def respC1 : ApiResponse :=
  .success (some (.jobj [("d".data, .jarr [.jstr ("a".data)])]))

/-- Claim C1: the code_bug evaluation.  With both facet dimensions
resolving to one facet and every page containing an entity element that
has a name sub-element but no facility sub-element, the whole run raises
AttributeError out of gather_medicover_data instead of completing; a
facet response whose body is not valid JSON likewise raises
json.JSONDecodeError out of the run. -/
theorem claim_C1_fatal :
    gather_medicover_data netC1 [] respC1 respC1 2 = .error .attributeError ∧
    gather_medicover_data netC1 [] (ApiResponse.success none) respC1 2 =
      .error .jsonDecodeError := by
  exact ⟨by decide, rfl⟩

/-! ## Pagination crawler lemmas -/

/-- The loop-step equation of crawlFrom. -/
lemma crawlFrom_succ (net : Str → PageResponse) (b p c : Str)
    (i fuel : Nat) (acc : List EntityRecord) :
    crawlFrom net b p c i (fuel + 1) acc =
      if scrape_doctors (net (make_url b p c i)) = [] then
        .ok ⟨acc, [i], acc.isEmpty, true⟩
      else
        exBind (extract_doctor_info
            (scrape_doctors (net (make_url b p c i)))) (fun recs =>
          exBind (crawlFrom net b p c (i + 1) fuel (acc ++ recs))
            (fun r => .ok ⟨r.records, i :: r.requested, r.note,
              r.stoppedEmpty⟩)) := rfl

lemma pageList_succ (i n : Nat) :
    pageList i (n + 1) = i :: pageList (i + 1) n := rfl

lemma pageList_length : ∀ (i n : Nat), (pageList i n).length = n
  | _, 0 => rfl
  | i, n + 1 => by rw [pageList_succ, List.length_cons, pageList_length (i + 1) n]

/-- When every page in the fuel window is nonempty and extractable, the
loop requests exactly the pages of the window and ends by exhausting the
bound, never by the break. -/
lemma crawlFrom_all_nonempty (net : Str → PageResponse) (b p c : Str) :
    ∀ (fuel i : Nat) (acc : List EntityRecord),
    (∀ j, i ≤ j → j < i + fuel →
      scrape_doctors (net (make_url b p c j)) ≠ [] ∧
      ∃ recs, extract_doctor_info (scrape_doctors (net (make_url b p c j)))
        = .ok recs) →
    ∃ r, crawlFrom net b p c i fuel acc = .ok r ∧
      r.requested = pageList i fuel ∧ r.stoppedEmpty = false ∧ r.note = false
  | 0, i, acc, _ => ⟨⟨acc, [], false, false⟩, rfl, rfl, rfl, rfl⟩
  | fuel + 1, i, acc, h => by
    obtain ⟨hne, recs, hrecs⟩ := h i (le_refl i) (by omega)
    obtain ⟨r, hr, hreq, hse, hnote⟩ :=
      crawlFrom_all_nonempty net b p c fuel (i + 1) (acc ++ recs)
        (fun j hj1 hj2 => h j (by omega) (by omega))
    refine ⟨⟨r.records, i :: r.requested, r.note, r.stoppedEmpty⟩, ?_, ?_, ?_, ?_⟩
    · rw [crawlFrom_succ, if_neg hne, hrecs, exBind_ok, hr, exBind_ok]
    · rw [pageList_succ, hreq]
    · exact hse
    · exact hnote

/-- Network used against claim C3: every page holds one complete entity
element, so no stop condition ever fires. -/
def netC3 : Str → PageResponse :=
  fun _ => .success [⟨some ("x".data), some ("y".data)⟩]

/-- Claim C3 counterexample: with the default pagination_limit of 50 and a
network on which no page is ever empty, the crawler requests 49 pages, not
50, and page index 50 is never requested: the loop bound
range(1, pagination_limit) is exclusive, not inclusive. -/
theorem claim_C3_counterexample :
    (crawlRun netC3 [] [] [] default_pagination_limit).map
        (fun r => (r.requested.length,
          r.requested.contains default_pagination_limit)) =
      .ok (default_pagination_limit - 1, false) ∧
    default_pagination_limit - 1 ≠ default_pagination_limit := by
  exact ⟨by decide, by decide⟩

/-- Claim C3 (amended): the pagination loop for one pair visits page
indices from 1 up to paginationLimit - 1 inclusive: if no page up to that
bound is empty, the crawler requests exactly paginationLimit - 1 pages,
the last having page index paginationLimit - 1, and stops by exhausting
the bound. -/
theorem claim_C3_pagination (net : Str → PageResponse) (b p c : Str)
    (limit : Nat)
    (h : ∀ j, 1 ≤ j → j < limit →
      scrape_doctors (net (make_url b p c j)) ≠ [] ∧
      ∃ recs, extract_doctor_info (scrape_doctors (net (make_url b p c j)))
        = .ok recs) :
    ∃ r, crawlRun net b p c limit = .ok r ∧
      r.requested = pageList 1 (limit - 1) ∧
      r.requested.length = limit - 1 ∧ r.stoppedEmpty = false := by
  obtain ⟨r, hr, hreq, hse, hnote⟩ :=
    crawlFrom_all_nonempty net b p c (limit - 1) 1 []
      (fun j hj1 hj2 => h j hj1 (by omega))
  exact ⟨r, hr, hreq, by rw [hreq, pageList_length], hse⟩

/-- Witness for claim C3 at pagination_limit 3 over a network with no
empty pages. -/
theorem claim_C3_pagination_witness :
    (∀ j, 1 ≤ j → j < 3 →
      scrape_doctors (netC3 (make_url [] [] [] j)) ≠ [] ∧
      ∃ recs, extract_doctor_info (scrape_doctors (netC3 (make_url [] [] [] j)))
        = .ok recs) ∧
    (∃ r, crawlRun netC3 [] [] [] 3 = .ok r ∧
      r.requested = pageList 1 2 ∧
      r.requested.length = 2 ∧ r.stoppedEmpty = false) := by
  have hh : ∀ j, 1 ≤ j → j < 3 →
      scrape_doctors (netC3 (make_url [] [] [] j)) ≠ [] ∧
      ∃ recs, extract_doctor_info (scrape_doctors (netC3 (make_url [] [] [] j)))
        = .ok recs :=
    fun j hj1 hj2 => ⟨List.cons_ne_nil _ _, ⟨_, rfl⟩⟩
  exact ⟨hh, claim_C3_pagination netC3 [] [] [] 3 hh⟩

/-- Two extractable nonempty pages followed by an empty page: the loop
accumulates both pages in order, requests exactly those three page
indices, and stops through the break. -/
lemma crawlFrom_two_then_empty (net : Str → PageResponse) (b p c : Str)
    (i fuel : Nat) (acc r1 r2 : List EntityRecord)
    (h1n : scrape_doctors (net (make_url b p c i)) ≠ [])
    (he1 : extract_doctor_info (scrape_doctors (net (make_url b p c i)))
      = .ok r1)
    (h2n : scrape_doctors (net (make_url b p c (i + 1))) ≠ [])
    (he2 : extract_doctor_info (scrape_doctors (net (make_url b p c (i + 1))))
      = .ok r2)
    (h3 : scrape_doctors (net (make_url b p c (i + 1 + 1))) = []) :
    crawlFrom net b p c i (fuel + 1 + 1 + 1) acc =
      .ok ⟨acc ++ r1 ++ r2, [i, i + 1, i + 1 + 1],
        (acc ++ r1 ++ r2).isEmpty, true⟩ := by
  rw [crawlFrom_succ, if_neg h1n, he1]
  simp only [exBind_ok]
  rw [crawlFrom_succ, if_neg h2n, he2]
  simp only [exBind_ok]
  rw [crawlFrom_succ, if_pos h3]
  simp only [exBind_ok]

/-- Claim C5: when pages 1 and 2 of a facet pair are nonempty and
extractable and page 3 is empty, the crawl at the default pagination
limit returns exactly the records of page 1 followed by those of page 2,
requests exactly pages 1, 2 and 3, and in particular never requests
page 4. -/
theorem claim_C5_two_pages (net : Str → PageResponse) (b p c : Str)
    (r1 r2 : List EntityRecord)
    (h1n : scrape_doctors (net (make_url b p c 1)) ≠ [])
    (he1 : extract_doctor_info (scrape_doctors (net (make_url b p c 1)))
      = .ok r1)
    (h2n : scrape_doctors (net (make_url b p c 2)) ≠ [])
    (he2 : extract_doctor_info (scrape_doctors (net (make_url b p c 2)))
      = .ok r2)
    (h3 : scrape_doctors (net (make_url b p c 3)) = []) :
    crawlRun net b p c default_pagination_limit =
      .ok ⟨r1 ++ r2, [1, 2, 3], (r1 ++ r2).isEmpty, true⟩ ∧
    scrape_doctors_info net b p c default_pagination_limit =
      .ok (r1 ++ r2) := by
  have hcr : crawlRun net b p c default_pagination_limit =
      .ok ⟨r1 ++ r2, [1, 2, 3], (r1 ++ r2).isEmpty, true⟩ := by
    exact crawlFrom_two_then_empty net b p c 1 46 [] r1 r2 h1n he1 h2n he2 h3
  refine ⟨hcr, ?_⟩
  unfold scrape_doctors_info
  rw [hcr, exBind_ok]

/-- Network used to witness claim C5: one complete entity element on pages
1 and 2, nothing on any later page. -/
def netC5 : Str → PageResponse := fun u =>
  if u = make_url [] ("p".data) ("c".data) 1 then
    .success [⟨some ("n1".data), some ("f1".data)⟩]
  else if u = make_url [] ("p".data) ("c".data) 2 then
    .success [⟨some ("n2".data), some ("f2".data)⟩]
  else .success []

/-- Witness for claim C5 on a concrete two-page network. -/
theorem claim_C5_two_pages_witness :
    scrape_doctors (netC5 (make_url [] ("p".data) ("c".data) 3)) = [] ∧
    crawlRun netC5 [] ("p".data) ("c".data) default_pagination_limit =
      .ok ⟨[⟨"n1".data, "f1".data⟩, ⟨"n2".data, "f2".data⟩], [1, 2, 3],
        false, true⟩ :=
  ⟨by decide,
    (claim_C5_two_pages netC5 [] ("p".data) ("c".data)
      [⟨"n1".data, "f1".data⟩] [⟨"n2".data, "f2".data⟩]
      (by decide) (by decide) (by decide) (by decide) (by decide)).1⟩

/-! ## Transport failure degrades to an empty page -/

/-- The crawler observes the network only through scrape_doctors. -/
lemma crawlFrom_congr {net1 net2 : Str → PageResponse}
    (h : ∀ u, scrape_doctors (net1 u) = scrape_doctors (net2 u))
    (b p c : Str) : ∀ (fuel i : Nat) (acc : List EntityRecord),
    crawlFrom net1 b p c i fuel acc = crawlFrom net2 b p c i fuel acc
  | 0, _, _ => rfl
  | fuel + 1, i, acc => by
    rw [crawlFrom_succ, crawlFrom_succ, h (make_url b p c i)]
    simp only [crawlFrom_congr h b p c fuel]

lemma scrape_doctors_info_congr {net1 net2 : Str → PageResponse}
    (h : ∀ u, scrape_doctors (net1 u) = scrape_doctors (net2 u))
    (b p c : Str) (limit : Nat) :
    scrape_doctors_info net1 b p c limit = scrape_doctors_info net2 b p c limit := by
  unfold scrape_doctors_info crawlRun
  rw [crawlFrom_congr h b p c (limit - 1) 1 []]

lemma gatherInner_congr {net1 net2 : Str → PageResponse}
    (h : ∀ u, scrape_doctors (net1 u) = scrape_doctors (net2 u))
    (b city : Str) (limit : Nat) :
    ∀ ps, gatherInner net1 b city limit ps = gatherInner net2 b city limit ps
  | [] => rfl
  | p :: ps => by
    unfold gatherInner
    rw [scrape_doctors_info_congr h b p city limit]
    simp only [gatherInner_congr h b city limit ps]

lemma gatherOuter_congr {net1 net2 : Str → PageResponse}
    (h : ∀ u, scrape_doctors (net1 u) = scrape_doctors (net2 u))
    (b : Str) (limit : Nat) (ps : List Str) :
    ∀ cs, gatherOuter net1 b limit ps cs = gatherOuter net2 b limit ps cs
  | [] => rfl
  | c :: cs => by
    unfold gatherOuter
    rw [gatherInner_congr h b c limit ps]
    simp only [gatherOuter_congr h b limit ps cs]

lemma gather_congr {net1 net2 : Str → PageResponse}
    (h : ∀ u, scrape_doctors (net1 u) = scrape_doctors (net2 u))
    (b : Str) (cityResp profResp : ApiResponse) (limit : Nat) :
    gather_medicover_data net1 b cityResp profResp limit =
      gather_medicover_data net2 b cityResp profResp limit := by
  unfold gather_medicover_data
  simp only [gatherOuter_congr h b limit]

/-- The network with the response at one URL replaced by a success with no
entity elements. -/
def updNet (net : Str → PageResponse) (u : Str) : Str → PageResponse :=
  fun v => if v = u then .success [] else net v

/-- Claim C6: a transport failure on a single page fetch is observationally
identical to a genuinely empty page: scrape_doctors returns the empty list
on the failure, and replacing the failing response by an empty success
page changes nothing in any crawl of any facet pair nor in the whole
gathered run. -/
theorem claim_C6_transport_failure (net : Str → PageResponse) (u : Str)
    (hu : net u = .failure) :
    scrape_doctors (net u) = [] ∧
    (∀ b p c limit,
      crawlRun (updNet net u) b p c limit = crawlRun net b p c limit) ∧
    (∀ b cityResp profResp limit,
      gather_medicover_data (updNet net u) b cityResp profResp limit =
        gather_medicover_data net b cityResp profResp limit) := by
  have hpt : ∀ v, scrape_doctors (updNet net u v) = scrape_doctors (net v) := by
    intro v
    unfold updNet
    by_cases hv : v = u
    · rw [if_pos hv, hv, hu]; rfl
    · rw [if_neg hv]
  refine ⟨by rw [hu]; rfl, fun b p c limit => ?_,
    fun b cityResp profResp limit => gather_congr hpt b cityResp profResp limit⟩
  unfold crawlRun
  exact crawlFrom_congr hpt b p c (limit - 1) 1 []

/-- Network that fails on every page fetch. -/
def netC6 : Str → PageResponse := fun _ => .failure

/-- Witness for claim C6: a failing response at one URL behaves like an
empty page in a concrete crawl. -/
theorem claim_C6_transport_failure_witness :
    netC6 [] = PageResponse.failure ∧
    scrape_doctors (netC6 []) = [] ∧
    crawlRun (updNet netC6 []) [] [] [] 3 = crawlRun netC6 [] [] [] 3 :=
  ⟨rfl, (claim_C6_transport_failure netC6 [] rfl).1,
    (claim_C6_transport_failure netC6 [] rfl).2.1 [] [] [] 3⟩

/-! ## The NOTE condition -/

/-- The NOTE flag of a completed loop is set exactly when the loop stopped
through the empty-page break with nothing accumulated. -/
lemma crawlFrom_note_iff (net : Str → PageResponse) (b p c : Str) :
    ∀ (fuel i : Nat) (acc : List EntityRecord) (r : CrawlResult),
    crawlFrom net b p c i fuel acc = .ok r →
    (r.note = true ↔ (r.stoppedEmpty = true ∧ r.records = []))
  | 0, i, acc, r, h => by
    injection h with h
    subst h
    simp
  | fuel + 1, i, acc, r, h => by
    rw [crawlFrom_succ] at h
    split at h
    · injection h with h
      subst h
      simp [List.isEmpty_iff]
    · simp only [exBind] at h
      split at h
      · exact absurd h (by simp)
      · rename_i recs hrecs
        split at h
        · exact absurd h (by simp)
        · rename_i r2 hr2
          injection h with h
          subst h
          simpa using crawlFrom_note_iff net b p c fuel (i + 1) (acc ++ recs) r2 hr2

/-- Claim C10: the condition for the NOTE notice is emptiness of the
accumulated record list at the first empty page, not the page index: a
completed crawl has the NOTE flag set exactly when it stopped through the
empty-page break with an empty record list, and in particular never when
the bound was exhausted. -/
theorem claim_C10_note_condition (net : Str → PageResponse) (b p c : Str)
    (limit : Nat) (r : CrawlResult)
    (h : crawlRun net b p c limit = .ok r) :
    r.note = true ↔ (r.stoppedEmpty = true ∧ r.records = []) :=
  crawlFrom_note_iff net b p c (limit - 1) 1 [] r h

/-- Network witnessing claim C10: page 1 holds one entity element with no
name sub-element, so it is filtered out, and page 2 is empty: the NOTE
fires at page 2, a page that is not the first page examined. -/
def netC10 : Str → PageResponse := fun u =>
  if u = make_url [] ("p".data) ("c".data) 1 then .success [⟨none, none⟩]
  else .success []

/-- Witness for claim C10: the NOTE fires on an empty accumulator at the
second page. -/
theorem claim_C10_note_condition_witness :
    crawlRun netC10 [] ("p".data) ("c".data) 50 = .ok ⟨[], [1, 2], true, true⟩ ∧
    ((⟨[], [1, 2], true, true⟩ : CrawlResult).note = true ↔
      ((⟨[], [1, 2], true, true⟩ : CrawlResult).stoppedEmpty = true ∧
        (⟨[], [1, 2], true, true⟩ : CrawlResult).records = [])) :=
  ⟨by decide,
    claim_C10_note_condition netC10 [] ("p".data) ("c".data) 50
      ⟨[], [1, 2], true, true⟩ (by decide)⟩

/-! ## The aggregator -/

lemma gatherInner_ok (net : Str → PageResponse) (b city : Str) (limit : Nat)
    (r : Str → List EntityRecord) :
    ∀ ps, (∀ p ∈ ps, scrape_doctors_info net b p city limit = .ok (r p)) →
    gatherInner net b city limit ps = .ok (ps.map (fun p => (p, r p)))
  | [], _ => rfl
  | p :: ps, h => by
    unfold gatherInner
    rw [h p (List.mem_cons_self p ps), exBind_ok,
      gatherInner_ok net b city limit r ps
        (fun q hq => h q (List.mem_cons_of_mem p hq)),
      exBind_ok, List.map_cons]

lemma gatherOuter_ok (net : Str → PageResponse) (b : Str) (limit : Nat)
    (ps : List Str) (f : Str → List (Str × List EntityRecord)) :
    ∀ cs, (∀ c ∈ cs, gatherInner net b c limit ps = .ok (f c)) →
    gatherOuter net b limit ps cs = .ok (cs.map (fun c => (c, f c)))
  | [], _ => rfl
  | c :: cs, h => by
    unfold gatherOuter
    rw [h c (List.mem_cons_self c cs), exBind_ok,
      gatherOuter_ok net b limit ps f cs
        (fun d hd => h d (List.mem_cons_of_mem c hd)),
      exBind_ok, List.map_cons]

/-- Claim C7: when both facet dimensions resolve and every crawl returns,
gather builds exactly the full Cartesian product tree: outer keys are the
resolved cities in order, inner keys under every city are the resolved
professions in order, and each pair holds its crawl result, present even
when empty.  When the transport call fails for the city dimension the run
completes with an empty tree, and when it fails for the profession
dimension the run completes with an empty inner mapping under every
city. -/
theorem claim_C7_gather (net : Str → PageResponse) (b : Str)
    (cityResp profResp : ApiResponse) (limit : Nat) (cs ps : List Str)
    (r : Str → Str → List EntityRecord)
    (hc : fetch_data cityResp = .ok cs)
    (hp : fetch_data profResp = .ok ps)
    (hcr : ∀ c ∈ cs, ∀ p ∈ ps,
      scrape_doctors_info net b p c limit = .ok (r c p)) :
    gather_medicover_data net b cityResp profResp limit =
      .ok (cs.map (fun c => (c, ps.map (fun p => (p, r c p))))) ∧
    gather_medicover_data net b .failure profResp limit = .ok [] ∧
    gather_medicover_data net b cityResp .failure limit =
      .ok (cs.map (fun c => (c, []))) := by
  have hfail : fetch_data ApiResponse.failure = .ok ([] : List Str) := rfl
  refine ⟨?_, ?_, ?_⟩
  · unfold gather_medicover_data
    rw [hc, exBind_ok, hp, exBind_ok]
    exact gatherOuter_ok net b limit ps (fun c => ps.map (fun p => (p, r c p)))
      cs (fun c hcm =>
        gatherInner_ok net b c limit (fun p => r c p) ps
          (fun p hpm => hcr c hcm p hpm))
  · unfold gather_medicover_data
    rw [hfail, exBind_ok, hp, exBind_ok]
    rfl
  · unfold gather_medicover_data
    rw [hc, exBind_ok, hfail, exBind_ok]
    exact gatherOuter_ok net b limit [] (fun _ => []) cs (fun c _ => rfl)

/-- Witness for claim C7 on one city, one profession and a network that
fails every page fetch, so the single pair is present with an empty
result. -/
theorem claim_C7_gather_witness :
    fetch_data respC1 = .ok [("a".data : Str)] ∧
    (∀ c ∈ [("a".data : Str)], ∀ p ∈ [("a".data : Str)],
      scrape_doctors_info netC6 [] p c 3 = .ok []) ∧
    gather_medicover_data netC6 [] respC1 respC1 3 =
      .ok [(("a".data : Str), [(("a".data : Str), ([] : List EntityRecord))])] :=
  ⟨by decide, by decide,
    (claim_C7_gather netC6 [] respC1 respC1 3 [("a".data : Str)]
      [("a".data : Str)] (fun _ _ => [])
      (by decide) (by decide) (by decide)).1⟩
